import Mathlib

/-!
# Verification of the go-trac JSON-RPC client

A shallow embedding of the go-trac repository (`pkg/trac/client.go`,
`pkg/trac/ticket.go`, `pkg/trac/system.go`, and the wiki source file), with
theorems settling the frozen claims about its specification.

Conventions of the embedding:
* JSON values already parsed by `encoding/json` into Go `interface{}` trees
  are modelled by `JValue`; Go maps are modelled as association lists in one
  iteration order (Go map iteration order is unspecified; order sensitivity
  is studied explicitly where a claim asks for it).
* Go `time.Time` is modelled by `DateTime` (wall-clock fields, UTC); the
  codec under verification only reads and writes wall-clock fields.
* A Go panic (nil dereference, failed type assertion, `reflect` kind
  mismatch) is modelled by `none` / a dedicated `panic` constructor.
* Ticket numeric identifiers are modelled by `Int` (the wire carries
  integral ids; the `float64`-to-`int` narrowing of `t.ID = int(v)` is not
  exercised by any claim).
-/

/-- Model of a parsed JSON value as produced by Go `json.Unmarshal` into
`interface{}` (`nil`, `bool`, `float64`, `string`, `[]interface{}`,
`map[string]interface{}`). Objects are association lists in one fixed
iteration order. -/
inductive JValue where
  | null : JValue
  | bool : Bool → JValue
  | num : Int → JValue
  | str : String → JValue
  | arr : List JValue → JValue
  | obj : List (String × JValue) → JValue

/-- Go `tt != "some literal"` where `tt` is an `interface{}`: true exactly
when the value is that string. -/
def JValue.isStrEq : JValue → String → Bool
  | .str s, t => s = t
  | _, _ => false

/-- ASCII uppercase conversion, as `unicode.ToTitle` acts on ASCII letters. -/
def goUpper (c : Char) : Char :=
  if 'a' ≤ c ∧ c ≤ 'z' then Char.ofNat (c.toNat - 32) else c

/-- Go `unicode.IsSpace`-style separator test used by `strings.Title`
(restricted to ASCII, the only alphabet the wire field names use):
letters, digits and underscore are not separators, everything else is. -/
def goIsSep (c : Char) : Bool :=
  !(c.isAlphanum || c == '_')

/-- Worker for `goTitle`: `prevSep` records whether the previous original
character was a separator (the start of input counts as one). -/
def goTitleAux : Bool → List Char → List Char
  | _, [] => []
  | prevSep, c :: rest =>
    (if prevSep then goUpper c else c) :: goTitleAux (goIsSep c) rest

/-- Model of Go `strings.Title` on ASCII input (ticket.go line 159:
`kkt := strings.Title(kk)`): the first letter of every word is mapped to
title case, all other characters are unchanged. -/
def goTitle (s : String) : String :=
  String.mk (goTitleAux true s.toList)

/-! ## Datetime codec (`pkg/trac/ticket.go`, `const timeFormat`,
`Version.UnmarshalJSON`, `Version.MarshalJSON`) -/

/-- Wall-clock instant, the part of Go `time.Time` the codec reads and
writes (the codec formats and parses without a zone; parsing yields UTC). -/
structure DateTime where
  year : Nat
  month : Nat
  day : Nat
  hour : Nat
  minute : Nat
  second : Nat
  nanos : Nat
deriving DecidableEq, Repr

/-- The Go zero `time.Time{}`: January 1, year 1, 00:00:00 UTC. -/
def zeroDT : DateTime := ⟨1, 1, 1, 0, 0, 0, 0⟩

/-- Gregorian leap-year rule used by Go `time`. -/
def isLeap (y : Nat) : Bool :=
  y % 4 = 0 && (y % 100 ≠ 0 || y % 400 = 0)

/-- Days in a month, as Go `time`'s `daysIn`. -/
def daysIn (m y : Nat) : Nat :=
  if m = 2 then (if isLeap y then 29 else 28)
  else if m = 4 ∨ m = 6 ∨ m = 9 ∨ m = 11 then 30
  else 31

/-- The instant is representable in the wire format
`YYYY-MM-DDTHH:MM:SS` (4-digit year) with in-range calendar fields, i.e. it
is in the image of the marker format that Go `time.Parse` accepts. -/
def DateTime.Valid (t : DateTime) : Prop :=
  t.year ≤ 9999 ∧ 1 ≤ t.month ∧ t.month ≤ 12 ∧ 1 ≤ t.day ∧
    t.day ≤ daysIn t.month t.year ∧ t.hour ≤ 23 ∧ t.minute ≤ 59 ∧
    t.second ≤ 59

instance (t : DateTime) : Decidable t.Valid := by
  unfold DateTime.Valid; infer_instance

/-- Decimal digit value of a character, if any. -/
def charToDigit (c : Char) : Option Nat :=
  if c = '0' then some 0 else if c = '1' then some 1
  else if c = '2' then some 2 else if c = '3' then some 3
  else if c = '4' then some 4 else if c = '5' then some 5
  else if c = '6' then some 6 else if c = '7' then some 7
  else if c = '8' then some 8 else if c = '9' then some 9
  else none

/-- Character for a decimal digit (values above 9 clamp to '9'; never
reached on the in-range inputs the formatter produces). -/
def digitChar (d : Nat) : Char :=
  if d = 0 then '0' else if d = 1 then '1' else if d = 2 then '2'
  else if d = 3 then '3' else if d = 4 then '4' else if d = 5 then '5'
  else if d = 6 then '6' else if d = 7 then '7' else if d = 8 then '8'
  else '9'

/-- Read a fixed-width 2-digit number, as Go `time`'s `getnum` with
`fixed = true` does for the zero-padded verbs `01 02 15 04 05`. -/
def read2 : List Char → Option (Nat × List Char)
  | c1 :: c2 :: rest =>
    match charToDigit c1, charToDigit c2 with
    | some d1, some d2 => some (10 * d1 + d2, rest)
    | _, _ => none
  | _ => none

/-- Read a fixed-width 4-digit number, as Go `time.Parse` reads the
`2006` year verb (exactly four digits). -/
def read4 : List Char → Option (Nat × List Char)
  | c1 :: c2 :: c3 :: c4 :: rest =>
    match charToDigit c1, charToDigit c2, charToDigit c3, charToDigit c4 with
    | some d1, some d2, some d3, some d4 =>
      some (1000 * d1 + 100 * d2 + 10 * d3 + d4, rest)
    | _, _, _, _ => none
  | _ => none

/-- Consume one expected literal layout character. -/
def expectCh (c : Char) : List Char → Option (List Char)
  | c0 :: rest => if c0 = c then some rest else none
  | [] => none

/-- Model of Go `getnum(value, false)`, used by `time.Parse` for the `15`
hour verb: one or two digits, read greedily, so a single-digit hour such
as in "2024-03-01T3:04:05" is accepted. -/
def readNum : List Char → Option (Nat × List Char)
  | [] => none
  | [c1] =>
    match charToDigit c1 with
    | some d1 => some (d1, [])
    | none => none
  | c1 :: c2 :: rest =>
    match charToDigit c1, charToDigit c2 with
    | some d1, some d2 => some (10 * d1 + d2, rest)
    | some d1, none => some (d1, c2 :: rest)
    | none, _ => none

/-- Leading decimal digits of the input and the remaining characters. -/
def takeDigits : List Char → List Nat × List Char
  | c :: rest =>
    match charToDigit c with
    | some d =>
      let r := takeDigits rest
      (d :: r.1, r.2)
    | none => ([], c :: rest)
  | [] => ([], [])

/-- Model of Go `parseNanoseconds` as invoked from the seconds verb: the
value of the first nine fractional digits, scaled to nanoseconds (all
further digits are consumed but ignored). -/
def fracNanos (ds : List Nat) : Nat :=
  (ds.take 9).foldl (fun a d => a * 10 + d) 0 * 10 ^ (9 - min ds.length 9)

/-- Model of the special case in Go `time.Parse` after the seconds verb:
even though the layout has no fractional-second verb, a period or comma
followed by at least one digit is consumed as a fractional second and
stored as nanoseconds. Anything else is left untouched. Returns the
nanoseconds and the remaining input. -/
def parseFrac : List Char → Nat × List Char
  | p :: c :: rest =>
    if p = '.' ∨ p = ',' then
      match charToDigit c with
      | some d =>
        let r := takeDigits rest
        (fracNanos (d :: r.1), r.2)
      | none => (0, p :: c :: rest)
    else (0, p :: c :: rest)
  | cs => (0, cs)

/-- Model of Go `time.Parse("2006-01-02T15:04:05", s)` on the character
list of `s`: fixed-width 4-digit year and 2-digit month, day, minute and
second (`getnum` with `fixed = true`), a one-or-two-digit hour (the `15`
verb uses `fixed = false`), literal separators, an optional
fractional-second suffix after the seconds (stored as nanoseconds), the
whole input consumed, and the range checks Go performs (month 1–12, day
1–daysIn, hour < 24, minute < 60, second < 60). -/
def parseDTList (cs : List Char) : Option DateTime :=
  (read4 cs).bind fun p1 =>
  (expectCh '-' p1.2).bind fun r1 =>
  (read2 r1).bind fun p2 =>
  (expectCh '-' p2.2).bind fun r2 =>
  (read2 r2).bind fun p3 =>
  (expectCh 'T' p3.2).bind fun r3 =>
  (readNum r3).bind fun p4 =>
  (expectCh ':' p4.2).bind fun r4 =>
  (read2 r4).bind fun p5 =>
  (expectCh ':' p5.2).bind fun r5 =>
  (read2 r5).bind fun p6 =>
  match parseFrac p6.2 with
  | (ns, []) =>
    if 1 ≤ p2.1 ∧ p2.1 ≤ 12 ∧ 1 ≤ p3.1 ∧ p3.1 ≤ daysIn p2.1 p1.1 ∧
        p4.1 ≤ 23 ∧ p5.1 ≤ 59 ∧ p6.1 ≤ 59 then
      some ⟨p1.1, p2.1, p3.1, p4.1, p5.1, p6.1, ns⟩
    else none
  | _ => none

/-- Model of `time.Parse(timeFormat, s)`; `none` models a non-nil error. -/
def goTimeParse (s : String) : Option DateTime :=
  parseDTList s.toList

/-- Zero-padded 2-digit rendering (Go `appendInt(b, n, 2)`). -/
def pad2 (n : Nat) : List Char := [digitChar (n / 10), digitChar (n % 10)]

/-- Zero-padded 4-digit rendering (Go `appendInt(b, year, 4)`). -/
def pad4 (n : Nat) : List Char :=
  [digitChar (n / 1000), digitChar (n / 100 % 10),
   digitChar (n / 10 % 10), digitChar (n % 10)]

/-- Character list of `t.Format("2006-01-02T15:04:05")`: sub-second
precision is simply not rendered (truncated, never rounded). -/
def formatDT (t : DateTime) : List Char :=
  pad4 t.year ++ '-' :: (pad2 t.month ++ '-' :: (pad2 t.day ++
    'T' :: (pad2 t.hour ++ ':' :: (pad2 t.minute ++ ':' :: pad2 t.second))))

/-- Model of `t.Format(timeFormat)` (ticket.go line 98, `tmptime`). -/
def goTimeFormat (t : DateTime) : String :=
  String.mk (formatDT t)

/-- The two-element class-hint marker `{"__jsonclass__": [kind, value]}`
(`CustomType` in the wiki source file). -/
structure CustomType where
  kv : String × String
deriving DecidableEq, Repr

/-- Time-decoding core of `Version.UnmarshalJSON` (ticket.go lines 77–94):
`time.Parse(timeFormat, tmp.Time.Kv[1])`. Note the source never inspects
`Kv[0]`. -/
def versionUnmarshalTime (ct : CustomType) : Option DateTime :=
  goTimeParse ct.kv.2

/-- Time-encoding core of `Version.MarshalJSON` (ticket.go lines 97–110):
produces `[2]string{"datetime", v.Time.Format(timeFormat)}`. -/
def versionMarshalTime (t : DateTime) : CustomType :=
  ⟨("datetime", goTimeFormat t)⟩

/-! ## Transport envelope (`pkg/trac/client.go`) -/

/-- Model of `RPCError` (client.go lines 32–36). -/
structure RPCError where
  code : Int
  message : String
  name : String
deriving DecidableEq, Repr

/-- Model of `Response` (client.go lines 26–30); `result` is the raw, undecoded
`json.RawMessage` payload. -/
structure Response where
  error : RPCError
  id : String
  result : String
deriving DecidableEq, Repr

/-- The error returned by `Client.Query`: either a transport/envelope
failure (POST, body read, envelope unmarshal) or the typed `*RPCError`
taken from the response. -/
inductive QueryError where
  | transport : String → QueryError
  | remote : RPCError → QueryError
deriving DecidableEq, Repr

/-- Model of `Client.Query` (client.go lines 60–85), modelled from the point where
the HTTP exchange and envelope unmarshal have produced either a failure or
a `Response` value: if `response.Error.Code != 0` the call returns
`&response.Error`; otherwise it succeeds with the response (its raw
`Result` still undecoded). -/
def clientQuery (wire : Except String Response) : Except QueryError Response :=
  match wire with
  | .error e => .error (.transport e)
  | .ok r => if r.error.code ≠ 0 then .error (.remote r.error) else .ok r

/-- The error returned by `Client.Do`: a `Client.Query` failure, or a
failure to unmarshal `Response.Result` into the target value. -/
inductive DoError where
  | query : QueryError → DoError
  | decode : DoError
deriving DecidableEq, Repr

/-- Model of `Client.Do` (client.go lines 89–99): on any `Query` error it returns
immediately; only on success does it unmarshal `r.Result` into the target
(`unmarshal` models `json.Unmarshal` into the caller's value). -/
def clientDo {α : Type} (wire : Except String Response)
    (unmarshal : String → Option α) : Except DoError α :=
  match clientQuery wire with
  | .error e => .error (.query e)
  | .ok r =>
    match unmarshal r.result with
    | none => .error .decode
    | some v => .ok v

/-! ## Ticket record and its reflective decoder (`pkg/trac/ticket.go`) -/

/-- The `Ticket` struct (ticket.go lines 30–52), with Go zero values as
defaults. The unexported `client` pointer carries no decoded data and is
omitted; `Type` is rendered `ttype` (a reserved word in Lean). -/
structure Ticket where
  id : Int := 0
  time : DateTime := zeroDT
  changetime : DateTime := zeroDT
  owner : String := ""
  reporter : String := ""
  summary : String := ""
  description : String := ""
  project : String := ""
  status : String := ""
  ttype : String := ""
  priority : String := ""
  milestone : String := ""
  component : String := ""
  blockedBy : String := ""
  blocking : String := ""
  keywords : String := ""
  parents : String := ""
  resolution : String := ""
  version : String := ""
deriving DecidableEq, Repr

/-- The Go zero `Ticket{}`. -/
def defaultTicket : Ticket := {}

/-- The string-typed exported fields of `Ticket`, i.e. the targets on which
`reflect.Value.SetString` succeeds. -/
inductive TField where
  | owner | reporter | summary | description | project | status | ttype
  | priority | milestone | component | blockedBy | blocking | keywords
  | parents | resolution | version
deriving DecidableEq, Repr

/-- Write one string field (`reflect` field assignment by name). -/
def updF (t : Ticket) (f : TField) (v : String) : Ticket :=
  match f with
  | .owner => { t with owner := v }
  | .reporter => { t with reporter := v }
  | .summary => { t with summary := v }
  | .description => { t with description := v }
  | .project => { t with project := v }
  | .status => { t with status := v }
  | .ttype => { t with ttype := v }
  | .priority => { t with priority := v }
  | .milestone => { t with milestone := v }
  | .component => { t with component := v }
  | .blockedBy => { t with blockedBy := v }
  | .blocking => { t with blocking := v }
  | .keywords => { t with keywords := v }
  | .parents => { t with parents := v }
  | .resolution => { t with resolution := v }
  | .version => { t with version := v }

/-- Read one string field. -/
def getF (t : Ticket) (f : TField) : String :=
  match f with
  | .owner => t.owner
  | .reporter => t.reporter
  | .summary => t.summary
  | .description => t.description
  | .project => t.project
  | .status => t.status
  | .ttype => t.ttype
  | .priority => t.priority
  | .milestone => t.milestone
  | .component => t.component
  | .blockedBy => t.blockedBy
  | .blocking => t.blocking
  | .keywords => t.keywords
  | .parents => t.parents
  | .resolution => t.resolution
  | .version => t.version

/-- Go struct-field name of each string field, as `reflect.FieldByName`
sees it. -/
def canonName (f : TField) : String :=
  match f with
  | .owner => "Owner"
  | .reporter => "Reporter"
  | .summary => "Summary"
  | .description => "Description"
  | .project => "Project"
  | .status => "Status"
  | .ttype => "Type"
  | .priority => "Priority"
  | .milestone => "Milestone"
  | .component => "Component"
  | .blockedBy => "BlockedBy"
  | .blocking => "Blocking"
  | .keywords => "Keywords"
  | .parents => "Parents"
  | .resolution => "Resolution"
  | .version => "Version"

/-- Model of `reflect.ValueOf(t).Elem().FieldByName(name)` restricted to the
string-typed fields: the dispatch table the runtime lookup realizes. -/
def stringFieldOf (name : String) : Option TField :=
  if name = "Owner" then some .owner
  else if name = "Reporter" then some .reporter
  else if name = "Summary" then some .summary
  else if name = "Description" then some .description
  else if name = "Project" then some .project
  else if name = "Status" then some .status
  else if name = "Type" then some .ttype
  else if name = "Priority" then some .priority
  else if name = "Milestone" then some .milestone
  else if name = "Component" then some .component
  else if name = "BlockedBy" then some .blockedBy
  else if name = "Blocking" then some .blocking
  else if name = "Keywords" then some .keywords
  else if name = "Parents" then some .parents
  else if name = "Resolution" then some .resolution
  else if name = "Version" then some .version
  else none

/-- The exported non-string fields: `FieldByName` finds them, but
`SetString` (resp. `Set` with a `time.Time`) panics on them. -/
def nonStringFieldNames : List String := ["ID", "Time", "Changetime"]

/-- All exported attribute names of `Ticket` (the names `FieldByName` can
match after `strings.Title` normalization of a wire key). -/
def ticketFieldNames : List String :=
  ["ID", "Time", "Changetime", "Owner", "Reporter", "Summary", "Description",
   "Project", "Status", "Type", "Priority", "Milestone", "Component",
   "BlockedBy", "Blocking", "Keywords", "Parents", "Resolution", "Version"]

/-- Model of `Ticket.setField` (ticket.go lines 112–119): look the field up by name;
if found, `SetString` it (panicking — `none` — when the field is not
string-typed); the boolean result is ignored by every caller, so only the
updated record (or panic) is modelled. -/
def setField (t : Ticket) (field value : String) : Option Ticket :=
  if field = "ID" ∨ field = "Time" ∨ field = "Changetime" then none
  else
    match stringFieldOf field with
    | some f => some (updF t f value)
    | none => some t

/-- Model of `Ticket.setTime` (ticket.go lines 121–129): look the field up by name;
if found, parse the value with `timeFormat`, **discarding the parse error**
(`t, _ := time.Parse(...)`, so a malformed string yields the zero time),
and `Set` the field — panicking (`none`) when the found field is not a
`time.Time`. Unknown names are a no-op. -/
def setTime (t : Ticket) (field value : String) : Option Ticket :=
  if field = "Time" then
    some { t with time := (goTimeParse value).getD zeroDT }
  else if field = "Changetime" then
    some { t with changetime := (goTimeParse value).getD zeroDT }
  else if field = "ID" then none
  else
    match stringFieldOf field with
    | some _ => none
    | none => some t

/-- Fold a panic-propagating step over a list (`none` models a Go panic
aborting the surrounding loops). -/
def optFold {α : Type} (g : Ticket → α → Option Ticket) (l : List α)
    (init : Option Ticket) : Option Ticket :=
  l.foldl (fun acc a => acc.bind fun t => g t a) init

/-- Go `fmt.Sprintf("%s", tt)` for an `interface{}` element of a marker
array. Only the string case is ever exercised by the wire format; the
other branches abbreviate fmt's `%!s(...)`-style renderings — junk strings
that never parse as datetimes. -/
def goSprintfS : JValue → String
  | .str s => s
  | .num x => "%!s(float64=" ++ toString x ++ ")"
  | .bool b => "%!s(bool=" ++ toString b ++ ")"
  | .null => "%!s(<nil>)"
  | .arr _ => "[...]"
  | .obj _ => "map[...]"

/-- Model of `Ticket.setTimes` (ticket.go lines 132–144): iterate the nested
mapping's values; for each array value, apply `setTime` to every element
other than the literal `"datetime"`. -/
def setTimes (t : Ticket) (field : String)
    (values : List (String × JValue)) : Option Ticket :=
  optFold
    (fun t2 kv =>
      match kv.2 with
      | .arr elems =>
        optFold
          (fun t3 e =>
            if e.isStrEq "datetime" then some t3
            else setTime t3 field (goSprintfS e))
          elems (some t2)
      | _ => some t2)
    values (some t)

/-- One entry of the ticket's field mapping (the body of the inner loop of
`Ticket.UnmarshalJSON`, ticket.go lines 158–166): title-case the key, then
dispatch on the value's dynamic type. -/
def applyObjEntry (t : Ticket) (kv : String × JValue) : Option Ticket :=
  match kv.2 with
  | .str s => setField t (goTitle kv.1) s
  | .obj m => setTimes t (goTitle kv.1) m
  | _ => some t

/-- Model of `Ticket.UnmarshalJSON` (ticket.go lines 147–170) on an already-parsed
wire array: a number sets `ID`, an object is folded entry by entry, other
element types are ignored. The Go function returns a non-nil error only
when the input bytes are not valid JSON, which is outside this model;
`none` models a panic inside the reflective assignment. -/
def ticketUnmarshal (data : List JValue) : Option Ticket :=
  optFold
    (fun t i =>
      match i with
      | .num x => some { t with id := x }
      | .obj m => optFold applyObjEntry m (some t)
      | _ => some t)
    data (some defaultTicket)

/-- Values held by the attribute map `Ticket.Attrs` builds
(`map[string]interface{}`: strings and `time.Time`s). -/
inductive AttrVal where
  | str : String → AttrVal
  | time : DateTime → AttrVal
deriving DecidableEq, Repr

/-- One conditional entry of the attribute map: skipped when the field's
`fmt.Sprintf("%v", ...)` rendering is empty, i.e. exactly when a string
field is `""`. -/
def consIf (name v : String) (rest : List (String × AttrVal)) :
    List (String × AttrVal) :=
  if v = "" then rest else (name, .str v) :: rest

/-- Model of `Ticket.Attrs` (ticket.go lines 173–193): iterate the struct's fields
in declaration order, skip `client`, `ID`, `Summary` and `Description`,
skip fields whose `%v` rendering is empty, and map the lower-cased field
name to the field's value. The two `time.Time` fields always render
non-empty, so they are always present. The Go result is a map; it is
modelled as an association list with (distinct) keys in field order. -/
def ticketAttrs (t : Ticket) : List (String × AttrVal) :=
  ("time", .time t.time) :: ("changetime", .time t.changetime) ::
  consIf "owner" t.owner (consIf "reporter" t.reporter
  (consIf "project" t.project (consIf "status" t.status
  (consIf "type" t.ttype (consIf "priority" t.priority
  (consIf "milestone" t.milestone (consIf "component" t.component
  (consIf "blockedby" t.blockedBy (consIf "blocking" t.blocking
  (consIf "keywords" t.keywords (consIf "parents" t.parents
  (consIf "resolution" t.resolution (consIf "version" t.version [])))))))))))))

/-- Lower-cased attribute-map key of a string field
(`strings.ToLower` of the Go field name). -/
def attrKey (f : TField) : String :=
  match f with
  | .owner => "owner"
  | .reporter => "reporter"
  | .summary => "summary"
  | .description => "description"
  | .project => "project"
  | .status => "status"
  | .ttype => "type"
  | .priority => "priority"
  | .milestone => "milestone"
  | .component => "component"
  | .blockedBy => "blockedby"
  | .blocking => "blocking"
  | .keywords => "keywords"
  | .parents => "parents"
  | .resolution => "resolution"
  | .version => "version"

/-- The pure effect of one string-valued mapping entry on the record:
write through the dispatch table when the (title-cased) name matches a
string field, otherwise leave the record unchanged. -/
def updByName (t : Ticket) (name v : String) : Ticket :=
  match stringFieldOf name with
  | some f => updF t f v
  | none => t

/-- Fold step for a string-valued field mapping: the pure core of the
inner loop of `Ticket.UnmarshalJSON` on panic-free entries. -/
def stepU (t : Ticket) (kv : String × String) : Ticket :=
  updByName t (goTitle kv.1) kv.2

/-- A ticket wire array `[<id>, {<name>: <string>, ...}]` whose mapping is
entirely string-valued. -/
def wireOf (n : Int) (entries : List (String × String)) : List JValue :=
  [.num n, .obj (entries.map fun kv => (kv.1, .str kv.2))]

/-! ## Base64 and `Ticket.Attachment` (`pkg/trac/ticket.go` lines 274–305) -/

/-- Value of a character in the standard base64 alphabet. -/
def b64Val (c : Char) : Option Nat :=
  if 'A' ≤ c ∧ c ≤ 'Z' then some (c.toNat - 65)
  else if 'a' ≤ c ∧ c ≤ 'z' then some (c.toNat - 71)
  else if '0' ≤ c ∧ c ≤ '9' then some (c.toNat + 4)
  else if c = '+' then some 62
  else if c = '/' then some 63
  else none

/-- Quantum loop of Go `base64.StdEncoding.Decode` (on newline-filtered
input): four characters yield three bytes; `==`/`=` padding must end the
input (data after padding still emits that quantum's bytes, then errors);
an invalid character or a short final quantum contributes no bytes and
errors. The result pairs the bytes written with an error flag — on error
Go returns the bytes decoded so far together with the error. -/
def b64Quanta : List Char → List Nat × Bool
  | [] => ([], false)
  | c1 :: c2 :: c3 :: c4 :: rest =>
    match b64Val c1, b64Val c2 with
    | some v1, some v2 =>
      if c3 = '=' then
        if c4 = '=' then
          ([v1 * 4 + v2 / 16], !(rest = []))
        else ([], true)
      else
        match b64Val c3 with
        | some v3 =>
          if c4 = '=' then
            ([v1 * 4 + v2 / 16, v2 % 16 * 16 + v3 / 4], !(rest = []))
          else
            match b64Val c4 with
            | some v4 =>
              let b := [v1 * 4 + v2 / 16, v2 % 16 * 16 + v3 / 4,
                        v3 % 4 * 64 + v4]
              let r := b64Quanta rest
              (b ++ r.1, r.2)
            | none => ([], true)
        | none => ([], true)
    | _, _ => ([], true)
  | _ => ([], true)

/-- Go `base64.StdEncoding.DecodeString(s)`: newlines are skipped anywhere;
returns the decoded bytes together with an error flag (`true` models a
non-nil `CorruptInputError`), and on error the bytes decoded before the
corrupt quantum are still returned. -/
def b64DecodeString (s : String) : List Nat × Bool :=
  b64Quanta (s.toList.filter fun c => !(c = '\n' ∨ c = '\r'))

/-- Outcome of `Ticket.Attachment`: the Go function returns a
`([]byte, error)` pair or panics. -/
inductive AttachResult where
  | ok : List Nat → AttachResult
  | err : List Nat → AttachResult
  | panic : AttachResult
deriving DecidableEq, Repr

/-- State of a `Ticket.Attachment` call at the point where `Client.Query`
and the `json.Unmarshal` of `r.Result` have run. -/
inductive AttachInput where
  | queryFailed : String → AttachInput
  | badResult : AttachInput
  | parsed : List (String × JValue) → AttachInput

/-- Inner loop of `Ticket.Attachment` over one array value: skip elements
equal to `"binary"`; base64-decode every other element (the result is
stored through `out`, so a later element overwrites an earlier one), with
`return *out, err` on a decode error; the `ii.(string)` type assertion
panics on non-string elements. `Except` carries an early return. -/
def attachElems (elems : List JValue) (out : Option (List Nat)) :
    Except AttachResult (Option (List Nat)) :=
  match elems with
  | [] => .ok out
  | e :: rest =>
    if e.isStrEq "binary" then attachElems rest out
    else
      match e with
      | .str s =>
        let r := b64DecodeString s
        if r.2 then .error (.err r.1) else attachElems rest (some r.1)
      | _ => .error .panic

/-- Outer loop of `Ticket.Attachment` over the decoded response map, with
`out` modelling the `*[]byte` pointer (nil at entry). Non-array values hit
the `default` branch, whose `v.(string)` type assertion panics unless the
value is a string; at the end `return *out, nil` dereferences `out`,
panicking when it was never assigned. -/
def attachOuter (m : List (String × JValue)) (out : Option (List Nat)) :
    AttachResult :=
  match m with
  | [] =>
    match out with
    | none => .panic
    | some b => .ok b
  | (_, v) :: rest =>
    match v with
    | .arr elems =>
      match attachElems elems out with
      | .error r => r
      | .ok out2 => attachOuter rest out2
    | .str _ => attachOuter rest out
    | _ => .panic

/-- Model of `Ticket.Attachment` (ticket.go lines 274–305): `var out *[]byte` is
nil; both early error returns execute `return *out, err`, dereferencing
the nil pointer. -/
def ticketAttachment (q : AttachInput) : AttachResult :=
  match q with
  | .queryFailed _ => .panic
  | .badResult => .panic
  | .parsed m => attachOuter m none

/-! ## Unimplemented placeholder endpoints (`client.go`, `system.go`,
`ticket.go`, wiki source). Each Go method's receiver carries the client's
query capability; the models take it as an argument of arbitrary type `Q`
to express that it is never used. Nil slices and the empty string are the
Go zero results; the fixed error is `fmt.Errorf("Not implemented")`. -/

def goNotImplemented : String := "Not implemented"

/-- Model of `Search.SearchFilters` (client.go source, lines 120–122 of the search
section). -/
def searchSearchFilters {Q : Type} (_c : Q) : List String × Option String :=
  ([], some goNotImplemented)

/-- Model of `Search.Search`. -/
def searchSearch {Q : Type} (_c : Q) (_query : String) (_filters : List String) :
    List String × Option String :=
  ([], some goNotImplemented)

/-- Model of `System.MethodSignature` (system.go lines 71–73). -/
def systemMethodSignature {Q : Type} (_c : Q) (_method : String) :
    List String × Option String :=
  ([], some goNotImplemented)

/-- Model of `Ticket.RecentChanges` (ticket.go lines 337–340). -/
def ticketRecentChanges {Q : Type} (_c : Q) (_since : DateTime) :
    List Int × Option String :=
  ([], some goNotImplemented)

/-- Model of `Ticket.Actions` (ticket.go lines 343–345). -/
def ticketActions {Q : Type} (_c : Q) (_ticket : Int) :
    List String × Option String :=
  ([], some goNotImplemented)

/-- Model of `Ticket.AddAttachment` (ticket.go lines 308–310). -/
def ticketAddAttachment {Q : Type} (_c : Q) (_ticket : Int) :
    String × Option String :=
  ("", some goNotImplemented)

/-- Model of `Ticket.Update` (ticket.go lines 356–358). -/
def ticketUpdate {Q : Type} (_c : Q) (_ticket : Int) :
    List String × Option String :=
  ([], some goNotImplemented)

/-- Model of `Ticket.Changelog` (ticket.go lines 368–370): returns only an error. -/
def ticketChangelog {Q : Type} (_c : Q) (_ticket : Int) : Option String :=
  some goNotImplemented

/-- Model of `Wiki.PageVersion` (wiki source, lines 116–118): returns only an
error. -/
def wikiPageVersion {Q : Type} (_c : Q) (_pagename : String) (_ver : Int) :
    Option String :=
  some goNotImplemented

/-- Model of `Wiki.RecentChanges` (wiki source, lines 121–123). -/
def wikiRecentChanges {Q : Type} (_c : Q) (_since : DateTime) : Option String :=
  some goNotImplemented

/-- Model of `Wiki.PageInfoVersion` (wiki source, lines 131–133). -/
def wikiPageInfoVersion {Q : Type} (_c : Q) (_pagename : String) :
    List String × Option String :=
  ([], some goNotImplemented)

/-! ## Theorems -/

/-- C1: for every response envelope whose error object has a non-zero code,
`Client.Query` fails with the typed `*RPCError` carrying the remote code,
message and symbolic name, and `Client.Do` propagates that failure without
ever applying the result decoder — its outcome is independent of the
decoder and the raw result payload is never decoded. -/
theorem c1_remote_error_short_circuits (r : Response) (h : r.error.code ≠ 0) :
    clientQuery (.ok r) = .error (.remote r.error) ∧
    (∀ (α : Type) (d1 d2 : String → Option α),
      clientDo (.ok r) d1 = clientDo (.ok r) d2) ∧
    (∀ (α : Type) (d : String → Option α),
      clientDo (.ok r) d = .error (.query (.remote r.error))) := by
  refine ⟨?_, ?_, ?_⟩ <;> intros <;> simp [clientQuery, clientDo, h]

/-- Witness for C1 at a concrete failing response. -/
theorem c1_witness :
    clientDo (.ok ⟨⟨5, "boom", "TracError"⟩, "1", "7"⟩)
        (fun s => some s.length) =
      .error (.query (.remote ⟨5, "boom", "TracError"⟩)) :=
  (c1_remote_error_short_circuits ⟨⟨5, "boom", "TracError"⟩, "1", "7"⟩
    (by decide)).2.2 _ _

/-- C5: decoding the wire array `[42,{"Status":"closed","Owner":"alice"}]`
yields id 42, status "closed", owner "alice", every other field at its Go
zero value, and no error — in either iteration order of the two-entry
mapping. -/
theorem c5_concrete_scenario :
    ticketUnmarshal
        [.num 42, .obj [("Status", .str "closed"), ("Owner", .str "alice")]] =
      some { defaultTicket with id := 42, status := "closed", owner := "alice" } ∧
    ticketUnmarshal
        [.num 42, .obj [("Owner", .str "alice"), ("Status", .str "closed")]] =
      some { defaultTicket with id := 42, status := "closed", owner := "alice" } :=
  ⟨rfl, rfl⟩

/-- C9: every unimplemented placeholder endpoint returns its zero result
together with the fixed "Not implemented" error, and its outcome does not
depend on the client/transport value — no remote call is involved. -/
theorem c9_stub_endpoints {Q : Type} (q q2 : Q) (query : String)
    (filters : List String) (method : String) (since : DateTime)
    (tk : Int) (pagename : String) (ver : Int) :
    (searchSearchFilters q = ([], some goNotImplemented) ∧
      searchSearchFilters q = searchSearchFilters q2) ∧
    (searchSearch q query filters = ([], some goNotImplemented) ∧
      searchSearch q query filters = searchSearch q2 query filters) ∧
    (systemMethodSignature q method = ([], some goNotImplemented) ∧
      systemMethodSignature q method = systemMethodSignature q2 method) ∧
    (ticketRecentChanges q since = ([], some goNotImplemented) ∧
      ticketRecentChanges q since = ticketRecentChanges q2 since) ∧
    (ticketActions q tk = ([], some goNotImplemented) ∧
      ticketActions q tk = ticketActions q2 tk) ∧
    (ticketAddAttachment q tk = ("", some goNotImplemented) ∧
      ticketAddAttachment q tk = ticketAddAttachment q2 tk) ∧
    (ticketUpdate q tk = ([], some goNotImplemented) ∧
      ticketUpdate q tk = ticketUpdate q2 tk) ∧
    (ticketChangelog q tk = some goNotImplemented ∧
      ticketChangelog q tk = ticketChangelog q2 tk) ∧
    (wikiPageVersion q pagename ver = some goNotImplemented ∧
      wikiPageVersion q pagename ver = wikiPageVersion q2 pagename ver) ∧
    (wikiRecentChanges q since = some goNotImplemented ∧
      wikiRecentChanges q since = wikiRecentChanges q2 since) ∧
    (wikiPageInfoVersion q pagename = ([], some goNotImplemented) ∧
      wikiPageInfoVersion q pagename = wikiPageInfoVersion q2 pagename) :=
  ⟨⟨rfl, rfl⟩, ⟨rfl, rfl⟩, ⟨rfl, rfl⟩, ⟨rfl, rfl⟩, ⟨rfl, rfl⟩, ⟨rfl, rfl⟩,
   ⟨rfl, rfl⟩, ⟨rfl, rfl⟩, ⟨rfl, rfl⟩, ⟨rfl, rfl⟩, ⟨rfl, rfl⟩⟩

/-- C10 (code bug): `Ticket.Attachment` declares `var out *[]byte` and
executes `return *out, err` on every error path and `return *out, nil`
when no binary payload was found — a nil-pointer dereference (panic), not
a returned `([]byte, error)` pair. A response value that is neither an
array nor a string likewise panics in the `v.(string)` type assertion. -/
theorem c10_attachment_nil_deref :
    (∀ e, ticketAttachment (.queryFailed e) = .panic) ∧
    ticketAttachment .badResult = .panic ∧
    ticketAttachment (.parsed []) = .panic ∧
    ticketAttachment (.parsed [("message", .str "no attachment")]) = .panic ∧
    ticketAttachment (.parsed [("count", .num 3)]) = .panic :=
  ⟨fun _ => rfl, rfl, rfl, rfl, rfl⟩

/-- Counterexample to C3 as stated: the wire array
`[42,{"time":{"__jsonclass__":["datetime","not-a-date"]}}]` carries a
datetime marker whose string does not match the format, yet
`Ticket.UnmarshalJSON` succeeds (the parse error is discarded by
`t, _ := time.Parse(...)` in `Ticket.setTime`) and returns the record with
the zero time. -/
theorem c3_counterexample :
    ticketUnmarshal [.num 42, .obj [("time", .obj [("__jsonclass__",
        .arr [.str "datetime", .str "not-a-date"])])]] =
      some { defaultTicket with id := 42 } ∧
    ticketUnmarshal [.num 42, .obj [("time", .obj [("__jsonclass__",
        .arr [.str "datetime", .str "not-a-date"])])]] ≠ none :=
  ⟨rfl, by decide⟩

/-- Counterexample to C4 as stated: the mapping name "OWNER" matches the
attribute `Owner` case-insensitively, yet decoding
`[42,{"OWNER":"alice"}]` leaves `Owner` empty — `strings.Title("OWNER")`
is `"OWNER"`, which `FieldByName` does not find. -/
theorem c4_counterexample :
    ticketUnmarshal [.num 42, .obj [("OWNER", .str "alice")]] =
      some { defaultTicket with id := 42 } ∧
    ∀ t, ticketUnmarshal [.num 42, .obj [("OWNER", .str "alice")]] = some t →
      t.owner ≠ "alice" := by
  refine ⟨rfl, fun t h => ?_⟩
  have h2 : some t = some ({ defaultTicket with id := 42 } : Ticket) :=
    h.symm.trans rfl
  cases Option.some.inj h2
  decide

/-- Counterexample to C7 as stated: the wire mapping `{"Summary":"hi"}`
decodes into the record, but `Ticket.Attrs` omits the `Summary` field, so
re-extracting the attributes does not yield the scalar value that was in
the wire mapping. -/
theorem c7_counterexample :
    ticketUnmarshal [.num 42, .obj [("Summary", .str "hi")]] =
      some { defaultTicket with id := 42, summary := "hi" } ∧
    List.lookup "summary"
        (ticketAttrs { defaultTicket with id := 42, summary := "hi" }) =
      none :=
  ⟨rfl, rfl⟩

/-- Counterexample to C8 as stated: decoding the binary marker payload
"aGVs!AAAA" (invalid standard base64) in `Ticket.Attachment` does fail
with an error, but the returned byte slice holds the partially decoded
prefix "hel" — a partially populated result is returned alongside the
error. -/
theorem c8_counterexample :
    ticketAttachment (.parsed [("__jsonclass__",
        .arr [.str "binary", .str "aGVs!AAAA"])]) = .err [104, 101, 108] ∧
    ([104, 101, 108] : List Nat) ≠ [] :=
  ⟨rfl, by decide⟩

/-! ### Helper lemmas on the decoder -/

theorem optFold_nil {α : Type} (g : Ticket → α → Option Ticket)
    (init : Option Ticket) : optFold g [] init = init := rfl

theorem optFold_cons {α : Type} (g : Ticket → α → Option Ticket) (a : α)
    (l : List α) (t : Ticket) :
    optFold g (a :: l) (some t) = optFold g l (g t a) := rfl

theorem optFold_none {α : Type} (g : Ticket → α → Option Ticket)
    (l : List α) : optFold g l none = none := by
  induction l with
  | nil => rfl
  | cons a l ih => exact ih

theorem optFold_const {α : Type} (g : Ticket → α → Option Ticket)
    (l : List α) (t0 : Ticket) (h : ∀ t a, a ∈ l → g t a = some t) :
    optFold g l (some t0) = some t0 := by
  induction l generalizing t0 with
  | nil => rfl
  | cons a l ih =>
    rw [optFold_cons, h t0 a (List.mem_cons_self a l)]
    exact ih t0 fun t b hb => h t b (List.mem_cons_of_mem a hb)

theorem optFold_pure {α : Type} (g : Ticket → α → Option Ticket)
    (p : Ticket → α → Ticket) (l : List α) (t0 : Ticket)
    (h : ∀ t a, a ∈ l → g t a = some (p t a)) :
    optFold g l (some t0) = some (l.foldl p t0) := by
  induction l generalizing t0 with
  | nil => rfl
  | cons a l ih =>
    rw [optFold_cons, h t0 a (List.mem_cons_self a l), List.foldl_cons]
    exact ih (p t0 a) fun t b hb => h t b (List.mem_cons_of_mem a hb)

theorem stringFieldOf_eq_canonName (name : String) (f : TField)
    (h : stringFieldOf name = some f) : name = canonName f := by
  rw [stringFieldOf] at h
  by_cases hc0 : name = "Owner"
  · rw [if_pos hc0] at h; injection h with h2; subst h2; exact hc0
  rw [if_neg hc0] at h
  by_cases hc1 : name = "Reporter"
  · rw [if_pos hc1] at h; injection h with h2; subst h2; exact hc1
  rw [if_neg hc1] at h
  by_cases hc2 : name = "Summary"
  · rw [if_pos hc2] at h; injection h with h2; subst h2; exact hc2
  rw [if_neg hc2] at h
  by_cases hc3 : name = "Description"
  · rw [if_pos hc3] at h; injection h with h2; subst h2; exact hc3
  rw [if_neg hc3] at h
  by_cases hc4 : name = "Project"
  · rw [if_pos hc4] at h; injection h with h2; subst h2; exact hc4
  rw [if_neg hc4] at h
  by_cases hc5 : name = "Status"
  · rw [if_pos hc5] at h; injection h with h2; subst h2; exact hc5
  rw [if_neg hc5] at h
  by_cases hc6 : name = "Type"
  · rw [if_pos hc6] at h; injection h with h2; subst h2; exact hc6
  rw [if_neg hc6] at h
  by_cases hc7 : name = "Priority"
  · rw [if_pos hc7] at h; injection h with h2; subst h2; exact hc7
  rw [if_neg hc7] at h
  by_cases hc8 : name = "Milestone"
  · rw [if_pos hc8] at h; injection h with h2; subst h2; exact hc8
  rw [if_neg hc8] at h
  by_cases hc9 : name = "Component"
  · rw [if_pos hc9] at h; injection h with h2; subst h2; exact hc9
  rw [if_neg hc9] at h
  by_cases hc10 : name = "BlockedBy"
  · rw [if_pos hc10] at h; injection h with h2; subst h2; exact hc10
  rw [if_neg hc10] at h
  by_cases hc11 : name = "Blocking"
  · rw [if_pos hc11] at h; injection h with h2; subst h2; exact hc11
  rw [if_neg hc11] at h
  by_cases hc12 : name = "Keywords"
  · rw [if_pos hc12] at h; injection h with h2; subst h2; exact hc12
  rw [if_neg hc12] at h
  by_cases hc13 : name = "Parents"
  · rw [if_pos hc13] at h; injection h with h2; subst h2; exact hc13
  rw [if_neg hc13] at h
  by_cases hc14 : name = "Resolution"
  · rw [if_pos hc14] at h; injection h with h2; subst h2; exact hc14
  rw [if_neg hc14] at h
  by_cases hc15 : name = "Version"
  · rw [if_pos hc15] at h; injection h with h2; subst h2; exact hc15
  rw [if_neg hc15] at h
  exact Option.noConfusion h

theorem canonName_mem_fieldNames (f : TField) :
    canonName f ∈ ticketFieldNames := by
  cases f <;> decide

theorem canonName_ne_nonString (f : TField) :
    canonName f ≠ "ID" ∧ canonName f ≠ "Time" ∧ canonName f ≠ "Changetime" := by
  cases f <;> exact ⟨by decide, by decide, by decide⟩

theorem getF_updF_self (t : Ticket) (f : TField) (v : String) :
    getF (updF t f v) f = v := by
  cases f <;> rfl

theorem getF_updF_ne (t : Ticket) (f g : TField) (v : String) (h : f ≠ g) :
    getF (updF t g v) f = getF t f := by
  cases f <;> cases g <;> first | rfl | exact absurd rfl h

theorem updF_comm (t : Ticket) (f g : TField) (v w : String) (h : f ≠ g) :
    updF (updF t f v) g w = updF (updF t g w) f v := by
  cases f <;> cases g <;> first | rfl | exact absurd rfl h

theorem setField_not_panic (t : Ticket) (name v : String)
    (h1 : name ≠ "ID") (h2 : name ≠ "Time") (h3 : name ≠ "Changetime") :
    setField t name v = some (updByName t name v) := by
  unfold setField updByName
  rw [if_neg (by simp [h1, h2, h3])]
  cases hs : stringFieldOf name <;> rfl

theorem setField_unmatched (t : Ticket) (name v : String)
    (h1 : name ≠ "ID") (h2 : name ≠ "Time") (h3 : name ≠ "Changetime")
    (h4 : stringFieldOf name = none) :
    setField t name v = some t := by
  rw [setField_not_panic t name v h1 h2 h3]
  unfold updByName
  rw [h4]

theorem setTime_unmatched (t : Ticket) (name v : String)
    (h1 : name ≠ "ID") (h2 : name ≠ "Time") (h3 : name ≠ "Changetime")
    (h4 : stringFieldOf name = none) :
    setTime t name v = some t := by
  unfold setTime
  rw [if_neg h2, if_neg h3, if_neg h1, h4]

theorem setTimes_unmatched (t : Ticket) (name : String)
    (values : List (String × JValue))
    (h1 : name ≠ "ID") (h2 : name ≠ "Time") (h3 : name ≠ "Changetime")
    (h4 : stringFieldOf name = none) :
    setTimes t name values = some t := by
  unfold setTimes
  apply optFold_const
  intro t2 kv _
  cases kv.2 with
  | arr elems =>
    apply optFold_const
    intro t3 e _
    cases he : e.isStrEq "datetime" with
    | true => simp [he]
    | false => simp [he, setTime_unmatched t3 name _ h1 h2 h3 h4]
  | null => rfl
  | bool b => rfl
  | num x => rfl
  | str s => rfl
  | obj m => rfl

theorem applyObjEntry_unmatched (t : Ticket) (kv : String × JValue)
    (h : goTitle kv.1 ∉ ticketFieldNames) :
    applyObjEntry t kv = some t := by
  have h1 : goTitle kv.1 ≠ "ID" := fun he => h (by rw [he]; decide)
  have h2 : goTitle kv.1 ≠ "Time" := fun he => h (by rw [he]; decide)
  have h3 : goTitle kv.1 ≠ "Changetime" := fun he => h (by rw [he]; decide)
  have h4 : stringFieldOf (goTitle kv.1) = none := by
    cases hs : stringFieldOf (goTitle kv.1) with
    | none => rfl
    | some f =>
      exact absurd ((stringFieldOf_eq_canonName _ _ hs) ▸
        canonName_mem_fieldNames f) h
  unfold applyObjEntry
  cases kv.2 with
  | str s => exact setField_unmatched t _ s h1 h2 h3 h4
  | obj m => exact setTimes_unmatched t _ m h1 h2 h3 h4
  | null => rfl
  | bool b => rfl
  | num x => rfl
  | arr xs => rfl

/-- Peeling the two elements of a ticket wire array. -/
theorem ticketUnmarshal_two (n : Int) (m : List (String × JValue)) :
    ticketUnmarshal [.num n, .obj m] =
      optFold applyObjEntry m (some { defaultTicket with id := n }) := rfl

/-- A `["datetime", s]` marker whose string fails to parse leaves the
record unchanged when its time fields already hold the zero time: the
parse error is discarded and the zero time is written back. -/
theorem setTimes_badmarker (t : Ticket) (name s : String)
    (hk : name = "Time" ∨ name = "Changetime")
    (hs : goTimeParse s = none)
    (ht : t.time = zeroDT) (hc : t.changetime = zeroDT) :
    setTimes t name [("__jsonclass__", JValue.arr [.str "datetime", .str s])] =
      some t := by
  have hstep : setTimes t name
      [("__jsonclass__", JValue.arr [.str "datetime", .str s])] =
      if (JValue.str s).isStrEq "datetime" then some t
      else setTime t name s := rfl
  rw [hstep]
  by_cases hsd : s = "datetime"
  · simp [JValue.isStrEq, hsd]
  · rw [if_neg (by simp [JValue.isStrEq, hsd])]
    rcases hk with hk | hk <;> subst hk
    · unfold setTime
      rw [if_pos rfl, hs]
      show some { t with time := zeroDT } = some t
      rw [← ht]
    · unfold setTime
      rw [if_neg (by decide), if_pos rfl, hs]
      show some { t with changetime := zeroDT } = some t
      rw [← hc]

/-- Decoding a wire array whose mapping is entirely string-valued and free
of the panic-prone names reduces to a pure fold of field writes. -/
theorem ticketUnmarshal_wire (n : Int) (entries : List (String × String))
    (hsafe : ∀ kv ∈ entries, goTitle kv.1 ≠ "ID" ∧ goTitle kv.1 ≠ "Time" ∧
      goTitle kv.1 ≠ "Changetime") :
    ticketUnmarshal (wireOf n entries) =
      some (entries.foldl stepU { defaultTicket with id := n }) := by
  have h0 : ticketUnmarshal (wireOf n entries) =
      optFold applyObjEntry (entries.map fun kv => (kv.1, JValue.str kv.2))
        (some { defaultTicket with id := n }) := rfl
  have hpure := optFold_pure applyObjEntry
    (fun t (kv : String × JValue) =>
      match kv.2 with
      | .str s => updByName t (goTitle kv.1) s
      | _ => t)
    (entries.map fun kv => (kv.1, JValue.str kv.2))
    { defaultTicket with id := n }
    (by
      intro t a ha
      rcases List.mem_map.mp ha with ⟨kv, hkv, rfl⟩
      obtain ⟨h1, h2, h3⟩ := hsafe kv hkv
      exact setField_not_panic t _ _ h1 h2 h3)
  rw [h0, hpure, List.foldl_map]
  rfl

/-- Entries whose (title-cased) names never resolve to `f` leave `f`
untouched across the fold. -/
theorem getF_foldl_untouched (l : List (String × String)) (t : Ticket)
    (f : TField) (h : ∀ kv ∈ l, goTitle kv.1 ≠ canonName f) :
    getF (l.foldl stepU t) f = getF t f := by
  induction l generalizing t with
  | nil => rfl
  | cons a l ih =>
    rw [List.foldl_cons, ih _ fun kv hk => h kv (List.mem_cons_of_mem a hk)]
    unfold stepU updByName
    cases hs : stringFieldOf (goTitle a.1) with
    | none => rfl
    | some g =>
      refine getF_updF_ne t f g a.2 fun hfg => ?h
      exact h a (List.mem_cons_self a l)
        (hfg ▸ stringFieldOf_eq_canonName _ _ hs)

/-- Under pairwise-distinct title-cased names, the fold writes each
matched entry's value into its field. -/
theorem getF_foldl_mem (l : List (String × String)) (t : Ticket)
    (kv : String × String) (f : TField)
    (hdist : l.Pairwise fun a b => goTitle a.1 ≠ goTitle b.1)
    (hmem : kv ∈ l) (hf : stringFieldOf (goTitle kv.1) = some f) :
    getF (l.foldl stepU t) f = kv.2 := by
  induction l generalizing t with
  | nil => cases hmem
  | cons a l ih =>
    rw [List.foldl_cons]
    rcases List.mem_cons.mp hmem with h1 | h1
    · subst h1
      rw [getF_foldl_untouched l _ f ?hrest]
      case hrest =>
        intro b hb heq
        exact (List.pairwise_cons.mp hdist).1 b hb
          ((stringFieldOf_eq_canonName _ _ hf).trans heq.symm)
      unfold stepU updByName
      rw [hf]
      exact getF_updF_self t f kv.2
    · exact ih _ (List.pairwise_cons.mp hdist).2 h1

/-- C3 (amended): a datetime class-hint marker whose string does not match
`YYYY-MM-DDTHH:MM:SS` does **not** fail the decode: `Ticket.setTime`
discards the `time.Parse` error, writes the zero time into the matched
time field, and `Ticket.UnmarshalJSON` returns the record successfully. -/
theorem c3_amended_malformed_date_is_ignored (n : Int) (k s : String)
    (hk : goTitle k = "Time" ∨ goTitle k = "Changetime")
    (hs : goTimeParse s = none) :
    ticketUnmarshal [.num n, .obj [(k, .obj [("__jsonclass__",
        .arr [.str "datetime", .str s])])]] =
      some { defaultTicket with id := n } := by
  rw [ticketUnmarshal_two]
  have h1 : optFold applyObjEntry [(k, JValue.obj [("__jsonclass__",
      JValue.arr [.str "datetime", .str s])])]
      (some { defaultTicket with id := n }) =
      setTimes { defaultTicket with id := n } (goTitle k)
        [("__jsonclass__", JValue.arr [.str "datetime", .str s])] := rfl
  rw [h1]
  exact setTimes_badmarker _ _ _ hk hs rfl rfl

/-- Witness for the amended C3 at a concrete malformed marker. -/
theorem c3_amended_witness :
    ticketUnmarshal [.num 5, .obj [("time", .obj [("__jsonclass__",
        .arr [.str "datetime", .str "oops"])])]] =
      some { defaultTicket with id := 5 } :=
  c3_amended_malformed_date_is_ignored 5 "time" "oops" (.inl (by decide))
    (by decide)

/-- C4 (amended): matching is not case-insensitive. An entry is assigned
precisely when `strings.Title` of its name equals the attribute's exact Go
field name — so "owner" and "Owner" reach `Owner`, while "OWNER" or
"blockedby" match nothing. For every string-valued mapping with distinct
title-cased names avoiding the non-string fields, each entry whose
title-cased name resolves in the dispatch table ends up in that field. -/
theorem c4_amended_title_case_match (n : Int)
    (entries : List (String × String))
    (hdist : entries.Pairwise fun a b => goTitle a.1 ≠ goTitle b.1)
    (hsafe : ∀ kv ∈ entries, goTitle kv.1 ≠ "ID" ∧ goTitle kv.1 ≠ "Time" ∧
      goTitle kv.1 ≠ "Changetime") :
    ∃ t, ticketUnmarshal (wireOf n entries) = some t ∧
      ∀ kv ∈ entries, ∀ f, stringFieldOf (goTitle kv.1) = some f →
        getF t f = kv.2 := by
  refine ⟨_, ticketUnmarshal_wire n entries hsafe, ?hmain⟩
  intro kv hkv f hf
  exact getF_foldl_mem entries _ kv f hdist hkv hf

/-- Witness for the amended C4: "owner" (title-cased to "Owner") is
assigned, at a concrete single-entry mapping. -/
theorem c4_amended_witness :
    ∃ t, ticketUnmarshal (wireOf 7 [("owner", "alice")]) = some t ∧
      ∀ kv ∈ [("owner", "alice")], ∀ f,
        stringFieldOf (goTitle kv.1) = some f → getF t f = kv.2 :=
  c4_amended_title_case_match 7 [("owner", "alice")]
    (by simp) (by decide)

/-- Fold steps that are the identity on filtered-out elements make the
fold invariant under dropping them. -/
theorem optFold_filter {α : Type} (g : Ticket → α → Option Ticket)
    (p : α → Bool) (l : List α) (init : Option Ticket)
    (h : ∀ t a, a ∈ l → p a = false → g t a = some t) :
    optFold g l init = optFold g (l.filter p) init := by
  induction l generalizing init with
  | nil => rfl
  | cons a l ih =>
    cases init with
    | none => rw [optFold_none, optFold_none]
    | some t =>
      cases hp : p a with
      | true =>
        rw [optFold_cons, List.filter_cons_of_pos hp, optFold_cons]
        exact ih _ fun t2 b hb hf => h t2 b (List.mem_cons_of_mem a hb) hf
      | false =>
        rw [optFold_cons, List.filter_cons_of_neg (by simp [hp]),
          h t a (List.mem_cons_self a l) hp]
        exact ih _ fun t2 b hb hf => h t2 b (List.mem_cons_of_mem a hb) hf

/-- C6: entries whose (title-cased) names match no attribute of `Ticket`
leave no trace: decoding any wire mapping equals decoding the mapping with
the unmatched entries removed, and a mapping made only of unmatched
entries decodes, without error, to the zero record with just the
identifier set. -/
theorem c6_unknown_names_ignored :
    (∀ (n : Int) (entries : List (String × JValue)),
      ticketUnmarshal [.num n, .obj entries] =
        ticketUnmarshal [.num n, .obj (entries.filter fun kv =>
          decide (goTitle kv.1 ∈ ticketFieldNames))]) ∧
    (∀ (n : Int) (entries : List (String × JValue)),
      (∀ kv ∈ entries, goTitle kv.1 ∉ ticketFieldNames) →
      ticketUnmarshal [.num n, .obj entries] =
        some { defaultTicket with id := n }) := by
  constructor
  · intro n entries
    rw [ticketUnmarshal_two, ticketUnmarshal_two]
    exact optFold_filter _ _ _ _ fun t kv _ hf =>
      applyObjEntry_unmatched t kv (of_decide_eq_false hf)
  · intro n entries h
    rw [ticketUnmarshal_two]
    exact optFold_const _ _ _ fun t kv hkv =>
      applyObjEntry_unmatched t kv (h kv hkv)

/-- Witness for C6 at a concrete mapping with unknown names (a scalar and
a nested marker). -/
theorem c6_witness :
    ticketUnmarshal [.num 9, .obj [("foo", .str "bar"),
        ("nested", .obj [("__jsonclass__",
          .arr [.str "datetime", .str "2024-03-01T10:15:30"])])]] =
      some { defaultTicket with id := 9 } :=
  c6_unknown_names_ignored.2 9 _ (by decide)

/-- Model of `updByName` on an unmatched name is the identity. -/
theorem updByName_none (t : Ticket) (n v : String)
    (h : stringFieldOf n = none) : updByName t n v = t := by
  unfold updByName; rw [h]

/-- Model of `updByName` on a matched name writes the field. -/
theorem updByName_some (t : Ticket) (n v : String) (f : TField)
    (h : stringFieldOf n = some f) : updByName t n v = updF t f v := by
  unfold updByName; rw [h]

/-- Writes through distinct names commute. -/
theorem updByName_comm (z : Ticket) (n1 n2 v1 v2 : String) (h : n1 ≠ n2) :
    updByName (updByName z n1 v1) n2 v2 =
      updByName (updByName z n2 v2) n1 v1 := by
  rcases h1 : stringFieldOf n1 with _ | f
  · rw [updByName_none _ _ _ h1, updByName_none _ _ _ h1]
  · rcases h2 : stringFieldOf n2 with _ | g
    · rw [updByName_none _ _ _ h2, updByName_none _ _ _ h2]
    · rw [updByName_some _ _ _ _ h1, updByName_some _ _ _ _ h2,
        updByName_some _ _ _ _ h2, updByName_some _ _ _ _ h1]
      refine updF_comm z f g v1 v2 fun hfg => h ?hfg
      subst hfg
      exact (stringFieldOf_eq_canonName _ _ h1).trans
        (stringFieldOf_eq_canonName _ _ h2).symm

theorem lookup_cons_ne (k name : String) (a : AttrVal)
    (rest : List (String × AttrVal)) (h : k ≠ name) :
    List.lookup k ((name, a) :: rest) = List.lookup k rest := by
  rw [List.lookup_cons, beq_eq_false_iff_ne.mpr h]

theorem lookup_consIf_ne (k name v : String)
    (rest : List (String × AttrVal)) (h : k ≠ name) :
    List.lookup k (consIf name v rest) = List.lookup k rest := by
  unfold consIf
  by_cases hv : v = ""
  · rw [if_pos hv]
  · rw [if_neg hv]
    exact lookup_cons_ne k name _ rest h

theorem lookup_consIf_self (name v : String)
    (rest : List (String × AttrVal)) (h : v ≠ "") :
    List.lookup name (consIf name v rest) = some (.str v) := by
  unfold consIf
  rw [if_neg h, List.lookup_cons, beq_self_eq_true]

/-- The attribute map built by `Ticket.Attrs` contains every non-empty
string field except `Summary` and `Description`, under the lower-cased
field name. -/
theorem attrs_lookup_str (t : Ticket) (f : TField)
    (h1 : f ≠ .summary) (h2 : f ≠ .description) (h3 : getF t f ≠ "") :
    List.lookup (attrKey f) (ticketAttrs t) = some (.str (getF t f)) := by
  cases f
  case summary => exact absurd rfl h1
  case description => exact absurd rfl h2
  case owner =>
    unfold ticketAttrs
    rw [lookup_cons_ne _ _ _ _ (by decide), lookup_cons_ne _ _ _ _ (by decide)]
    exact lookup_consIf_self _ _ _ h3
  case reporter =>
    unfold ticketAttrs
    rw [lookup_cons_ne _ _ _ _ (by decide), lookup_cons_ne _ _ _ _ (by decide)]
    rw [lookup_consIf_ne _ _ _ _ (by decide)]
    exact lookup_consIf_self _ _ _ h3
  case project =>
    unfold ticketAttrs
    rw [lookup_cons_ne _ _ _ _ (by decide), lookup_cons_ne _ _ _ _ (by decide)]
    rw [lookup_consIf_ne _ _ _ _ (by decide)]
    rw [lookup_consIf_ne _ _ _ _ (by decide)]
    exact lookup_consIf_self _ _ _ h3
  case status =>
    unfold ticketAttrs
    rw [lookup_cons_ne _ _ _ _ (by decide), lookup_cons_ne _ _ _ _ (by decide)]
    rw [lookup_consIf_ne _ _ _ _ (by decide)]
    rw [lookup_consIf_ne _ _ _ _ (by decide)]
    rw [lookup_consIf_ne _ _ _ _ (by decide)]
    exact lookup_consIf_self _ _ _ h3
  case ttype =>
    unfold ticketAttrs
    rw [lookup_cons_ne _ _ _ _ (by decide), lookup_cons_ne _ _ _ _ (by decide)]
    rw [lookup_consIf_ne _ _ _ _ (by decide)]
    rw [lookup_consIf_ne _ _ _ _ (by decide)]
    rw [lookup_consIf_ne _ _ _ _ (by decide)]
    rw [lookup_consIf_ne _ _ _ _ (by decide)]
    exact lookup_consIf_self _ _ _ h3
  case priority =>
    unfold ticketAttrs
    rw [lookup_cons_ne _ _ _ _ (by decide), lookup_cons_ne _ _ _ _ (by decide)]
    rw [lookup_consIf_ne _ _ _ _ (by decide)]
    rw [lookup_consIf_ne _ _ _ _ (by decide)]
    rw [lookup_consIf_ne _ _ _ _ (by decide)]
    rw [lookup_consIf_ne _ _ _ _ (by decide)]
    rw [lookup_consIf_ne _ _ _ _ (by decide)]
    exact lookup_consIf_self _ _ _ h3
  case milestone =>
    unfold ticketAttrs
    rw [lookup_cons_ne _ _ _ _ (by decide), lookup_cons_ne _ _ _ _ (by decide)]
    rw [lookup_consIf_ne _ _ _ _ (by decide)]
    rw [lookup_consIf_ne _ _ _ _ (by decide)]
    rw [lookup_consIf_ne _ _ _ _ (by decide)]
    rw [lookup_consIf_ne _ _ _ _ (by decide)]
    rw [lookup_consIf_ne _ _ _ _ (by decide)]
    rw [lookup_consIf_ne _ _ _ _ (by decide)]
    exact lookup_consIf_self _ _ _ h3
  case component =>
    unfold ticketAttrs
    rw [lookup_cons_ne _ _ _ _ (by decide), lookup_cons_ne _ _ _ _ (by decide)]
    rw [lookup_consIf_ne _ _ _ _ (by decide)]
    rw [lookup_consIf_ne _ _ _ _ (by decide)]
    rw [lookup_consIf_ne _ _ _ _ (by decide)]
    rw [lookup_consIf_ne _ _ _ _ (by decide)]
    rw [lookup_consIf_ne _ _ _ _ (by decide)]
    rw [lookup_consIf_ne _ _ _ _ (by decide)]
    rw [lookup_consIf_ne _ _ _ _ (by decide)]
    exact lookup_consIf_self _ _ _ h3
  case blockedBy =>
    unfold ticketAttrs
    rw [lookup_cons_ne _ _ _ _ (by decide), lookup_cons_ne _ _ _ _ (by decide)]
    rw [lookup_consIf_ne _ _ _ _ (by decide)]
    rw [lookup_consIf_ne _ _ _ _ (by decide)]
    rw [lookup_consIf_ne _ _ _ _ (by decide)]
    rw [lookup_consIf_ne _ _ _ _ (by decide)]
    rw [lookup_consIf_ne _ _ _ _ (by decide)]
    rw [lookup_consIf_ne _ _ _ _ (by decide)]
    rw [lookup_consIf_ne _ _ _ _ (by decide)]
    rw [lookup_consIf_ne _ _ _ _ (by decide)]
    exact lookup_consIf_self _ _ _ h3
  case blocking =>
    unfold ticketAttrs
    rw [lookup_cons_ne _ _ _ _ (by decide), lookup_cons_ne _ _ _ _ (by decide)]
    rw [lookup_consIf_ne _ _ _ _ (by decide)]
    rw [lookup_consIf_ne _ _ _ _ (by decide)]
    rw [lookup_consIf_ne _ _ _ _ (by decide)]
    rw [lookup_consIf_ne _ _ _ _ (by decide)]
    rw [lookup_consIf_ne _ _ _ _ (by decide)]
    rw [lookup_consIf_ne _ _ _ _ (by decide)]
    rw [lookup_consIf_ne _ _ _ _ (by decide)]
    rw [lookup_consIf_ne _ _ _ _ (by decide)]
    rw [lookup_consIf_ne _ _ _ _ (by decide)]
    exact lookup_consIf_self _ _ _ h3
  case keywords =>
    unfold ticketAttrs
    rw [lookup_cons_ne _ _ _ _ (by decide), lookup_cons_ne _ _ _ _ (by decide)]
    rw [lookup_consIf_ne _ _ _ _ (by decide)]
    rw [lookup_consIf_ne _ _ _ _ (by decide)]
    rw [lookup_consIf_ne _ _ _ _ (by decide)]
    rw [lookup_consIf_ne _ _ _ _ (by decide)]
    rw [lookup_consIf_ne _ _ _ _ (by decide)]
    rw [lookup_consIf_ne _ _ _ _ (by decide)]
    rw [lookup_consIf_ne _ _ _ _ (by decide)]
    rw [lookup_consIf_ne _ _ _ _ (by decide)]
    rw [lookup_consIf_ne _ _ _ _ (by decide)]
    rw [lookup_consIf_ne _ _ _ _ (by decide)]
    exact lookup_consIf_self _ _ _ h3
  case parents =>
    unfold ticketAttrs
    rw [lookup_cons_ne _ _ _ _ (by decide), lookup_cons_ne _ _ _ _ (by decide)]
    rw [lookup_consIf_ne _ _ _ _ (by decide)]
    rw [lookup_consIf_ne _ _ _ _ (by decide)]
    rw [lookup_consIf_ne _ _ _ _ (by decide)]
    rw [lookup_consIf_ne _ _ _ _ (by decide)]
    rw [lookup_consIf_ne _ _ _ _ (by decide)]
    rw [lookup_consIf_ne _ _ _ _ (by decide)]
    rw [lookup_consIf_ne _ _ _ _ (by decide)]
    rw [lookup_consIf_ne _ _ _ _ (by decide)]
    rw [lookup_consIf_ne _ _ _ _ (by decide)]
    rw [lookup_consIf_ne _ _ _ _ (by decide)]
    rw [lookup_consIf_ne _ _ _ _ (by decide)]
    exact lookup_consIf_self _ _ _ h3
  case resolution =>
    unfold ticketAttrs
    rw [lookup_cons_ne _ _ _ _ (by decide), lookup_cons_ne _ _ _ _ (by decide)]
    rw [lookup_consIf_ne _ _ _ _ (by decide)]
    rw [lookup_consIf_ne _ _ _ _ (by decide)]
    rw [lookup_consIf_ne _ _ _ _ (by decide)]
    rw [lookup_consIf_ne _ _ _ _ (by decide)]
    rw [lookup_consIf_ne _ _ _ _ (by decide)]
    rw [lookup_consIf_ne _ _ _ _ (by decide)]
    rw [lookup_consIf_ne _ _ _ _ (by decide)]
    rw [lookup_consIf_ne _ _ _ _ (by decide)]
    rw [lookup_consIf_ne _ _ _ _ (by decide)]
    rw [lookup_consIf_ne _ _ _ _ (by decide)]
    rw [lookup_consIf_ne _ _ _ _ (by decide)]
    rw [lookup_consIf_ne _ _ _ _ (by decide)]
    exact lookup_consIf_self _ _ _ h3
  case version =>
    unfold ticketAttrs
    rw [lookup_cons_ne _ _ _ _ (by decide), lookup_cons_ne _ _ _ _ (by decide)]
    rw [lookup_consIf_ne _ _ _ _ (by decide)]
    rw [lookup_consIf_ne _ _ _ _ (by decide)]
    rw [lookup_consIf_ne _ _ _ _ (by decide)]
    rw [lookup_consIf_ne _ _ _ _ (by decide)]
    rw [lookup_consIf_ne _ _ _ _ (by decide)]
    rw [lookup_consIf_ne _ _ _ _ (by decide)]
    rw [lookup_consIf_ne _ _ _ _ (by decide)]
    rw [lookup_consIf_ne _ _ _ _ (by decide)]
    rw [lookup_consIf_ne _ _ _ _ (by decide)]
    rw [lookup_consIf_ne _ _ _ _ (by decide)]
    rw [lookup_consIf_ne _ _ _ _ (by decide)]
    rw [lookup_consIf_ne _ _ _ _ (by decide)]
    rw [lookup_consIf_ne _ _ _ _ (by decide)]
    exact lookup_consIf_self _ _ _ h3

/-- C7 (amended): for string-valued wire mappings with pairwise-distinct
title-cased names, all matching string attributes other than `Summary` and
`Description` (which `Ticket.Attrs` omits) with non-empty values, decoding
is invariant under any reordering of the mapping's entries, and decoding
followed by `Ticket.Attrs` recovers every entry's scalar value under the
lower-cased attribute name. -/
theorem c7_amended_roundtrip_attrs (n : Int)
    (entries entries2 : List (String × String))
    (hperm : entries.Perm entries2)
    (hdist : entries.Pairwise fun a b => goTitle a.1 ≠ goTitle b.1)
    (hmatch : ∀ kv ∈ entries, ∃ f, stringFieldOf (goTitle kv.1) = some f ∧
      f ≠ TField.summary ∧ f ≠ TField.description)
    (hval : ∀ kv ∈ entries, kv.2 ≠ "") :
    ∃ t, ticketUnmarshal (wireOf n entries) = some t ∧
      ticketUnmarshal (wireOf n entries2) = some t ∧
      ∀ kv ∈ entries, ∀ f, stringFieldOf (goTitle kv.1) = some f →
        List.lookup (attrKey f) (ticketAttrs t) = some (.str kv.2) := by
  have hsafe : ∀ kv ∈ entries, goTitle kv.1 ≠ "ID" ∧ goTitle kv.1 ≠ "Time" ∧
      goTitle kv.1 ≠ "Changetime" := by
    intro kv hkv
    obtain ⟨f, hf, _, _⟩ := hmatch kv hkv
    have hcn := stringFieldOf_eq_canonName _ _ hf
    obtain ⟨ha, hb, hc⟩ := canonName_ne_nonString f
    rw [hcn]
    exact ⟨ha, hb, hc⟩
  have hsafe2 : ∀ kv ∈ entries2, goTitle kv.1 ≠ "ID" ∧
      goTitle kv.1 ≠ "Time" ∧ goTitle kv.1 ≠ "Changetime" :=
    fun kv hkv => hsafe kv (hperm.mem_iff.mpr hkv)
  have hsymm : Symmetric fun (a b : String × String) =>
      goTitle a.1 ≠ goTitle b.1 := fun a b h he => h he.symm
  have comm : ∀ x ∈ entries, ∀ y ∈ entries, ∀ z,
      stepU (stepU z x) y = stepU (stepU z y) x := by
    intro x hx y hy z
    by_cases hxy : x = y
    · subst hxy; rfl
    · exact updByName_comm z _ _ _ _
        (List.Pairwise.forall hsymm hdist hx hy hxy)
  have hfold := hperm.foldl_eq' comm { defaultTicket with id := n }
  refine ⟨_, ticketUnmarshal_wire n entries hsafe, ?dec2, ?lookups⟩
  case dec2 =>
    rw [ticketUnmarshal_wire n entries2 hsafe2]
    exact congrArg some hfold.symm
  case lookups =>
    intro kv hkv f hf
    obtain ⟨g, hg, hg1, hg2⟩ := hmatch kv hkv
    obtain rfl : f = g := Option.some.inj (hf.symm.trans hg)
    have hget := getF_foldl_mem entries
      { defaultTicket with id := n } kv f hdist hkv hf
    rw [attrs_lookup_str _ f hg1 hg2 (hget ▸ hval kv hkv), hget]

/-- Witness for the amended C7 at a concrete two-entry mapping, in both
iteration orders. -/
theorem c7_amended_witness :
    ∃ t, ticketUnmarshal (wireOf 3 [("owner", "alice"), ("status", "closed")]) =
        some t ∧
      ticketUnmarshal (wireOf 3 [("status", "closed"), ("owner", "alice")]) =
        some t ∧
      ∀ kv ∈ [("owner", "alice"), ("status", "closed")], ∀ f,
        stringFieldOf (goTitle kv.1) = some f →
          List.lookup (attrKey f) (ticketAttrs t) = some (.str kv.2) :=
  c7_amended_roundtrip_attrs 3 [("owner", "alice"), ("status", "closed")]
    [("status", "closed"), ("owner", "alice")]
    (by decide) (by decide)
    (by
      intro kv hkv
      rcases List.mem_cons.mp hkv with h | h
      · subst h; exact ⟨.owner, by decide, by decide, by decide⟩
      rcases List.mem_cons.mp h with h2 | h2
      · subst h2; exact ⟨.status, by decide, by decide, by decide⟩
      · cases h2)
    (by decide)

/-- C8 (amended): a binary marker payload that is not valid standard
base64 (and is not the literal "binary", which the element filter skips)
makes `Ticket.Attachment` return a non-nil error — but the byte slice
returned alongside it is the partially decoded prefix, not an empty
result. -/
theorem c8_amended_error_and_partial_bytes (k p : String)
    (hp : p ≠ "binary") (hbad : (b64DecodeString p).2 = true) :
    ticketAttachment (.parsed [(k, .arr [.str "binary", .str p])]) =
      .err (b64DecodeString p).1 := by
  have h0 : ticketAttachment (.parsed [(k, .arr [.str "binary", .str p])]) =
      (match attachElems [JValue.str p] none with
        | .error r => r
        | .ok out2 => attachOuter [] out2) := rfl
  have hf : (JValue.str p).isStrEq "binary" = false := by
    simp [JValue.isStrEq, hp]
  have h2 : attachElems [JValue.str p] none =
      if (JValue.str p).isStrEq "binary" then .ok none
      else if (b64DecodeString p).2 then
        .error (.err (b64DecodeString p).1)
      else .ok (some (b64DecodeString p).1) := rfl
  rw [h0, h2, hf, hbad]
  rfl

/-- Witness for the amended C8 at a concrete invalid payload. -/
theorem c8_amended_witness :
    ticketAttachment (.parsed [("__jsonclass__",
        .arr [.str "binary", .str "!!!!"])]) = .err [] :=
  c8_amended_error_and_partial_bytes "__jsonclass__" "!!!!" (by decide)
    (by decide)

/-! ### Digit and fixed-width reader lemmas for the datetime codec -/

theorem charToDigit_le_nine (c : Char) (d : Nat)
    (h : charToDigit c = some d) : d ≤ 9 := by
  rw [charToDigit] at h
  by_cases hc0 : c = '0'
  · rw [if_pos hc0] at h; injection h with h2; omega
  rw [if_neg hc0] at h
  by_cases hc1 : c = '1'
  · rw [if_pos hc1] at h; injection h with h2; omega
  rw [if_neg hc1] at h
  by_cases hc2 : c = '2'
  · rw [if_pos hc2] at h; injection h with h2; omega
  rw [if_neg hc2] at h
  by_cases hc3 : c = '3'
  · rw [if_pos hc3] at h; injection h with h2; omega
  rw [if_neg hc3] at h
  by_cases hc4 : c = '4'
  · rw [if_pos hc4] at h; injection h with h2; omega
  rw [if_neg hc4] at h
  by_cases hc5 : c = '5'
  · rw [if_pos hc5] at h; injection h with h2; omega
  rw [if_neg hc5] at h
  by_cases hc6 : c = '6'
  · rw [if_pos hc6] at h; injection h with h2; omega
  rw [if_neg hc6] at h
  by_cases hc7 : c = '7'
  · rw [if_pos hc7] at h; injection h with h2; omega
  rw [if_neg hc7] at h
  by_cases hc8 : c = '8'
  · rw [if_pos hc8] at h; injection h with h2; omega
  rw [if_neg hc8] at h
  by_cases hc9 : c = '9'
  · rw [if_pos hc9] at h; injection h with h2; omega
  rw [if_neg hc9] at h
  exact Option.noConfusion h

theorem charToDigit_digitChar (c : Char) (d : Nat)
    (h : charToDigit c = some d) : digitChar d = c := by
  rw [charToDigit] at h
  by_cases hc0 : c = '0'
  · rw [if_pos hc0] at h; injection h with h2; subst h2; subst hc0; rfl
  rw [if_neg hc0] at h
  by_cases hc1 : c = '1'
  · rw [if_pos hc1] at h; injection h with h2; subst h2; subst hc1; rfl
  rw [if_neg hc1] at h
  by_cases hc2 : c = '2'
  · rw [if_pos hc2] at h; injection h with h2; subst h2; subst hc2; rfl
  rw [if_neg hc2] at h
  by_cases hc3 : c = '3'
  · rw [if_pos hc3] at h; injection h with h2; subst h2; subst hc3; rfl
  rw [if_neg hc3] at h
  by_cases hc4 : c = '4'
  · rw [if_pos hc4] at h; injection h with h2; subst h2; subst hc4; rfl
  rw [if_neg hc4] at h
  by_cases hc5 : c = '5'
  · rw [if_pos hc5] at h; injection h with h2; subst h2; subst hc5; rfl
  rw [if_neg hc5] at h
  by_cases hc6 : c = '6'
  · rw [if_pos hc6] at h; injection h with h2; subst h2; subst hc6; rfl
  rw [if_neg hc6] at h
  by_cases hc7 : c = '7'
  · rw [if_pos hc7] at h; injection h with h2; subst h2; subst hc7; rfl
  rw [if_neg hc7] at h
  by_cases hc8 : c = '8'
  · rw [if_pos hc8] at h; injection h with h2; subst h2; subst hc8; rfl
  rw [if_neg hc8] at h
  by_cases hc9 : c = '9'
  · rw [if_pos hc9] at h; injection h with h2; subst h2; subst hc9; rfl
  rw [if_neg hc9] at h
  exact Option.noConfusion h

theorem digitChar_charToDigit (d : Nat) (h : d ≤ 9) :
    charToDigit (digitChar d) = some d := by
  interval_cases d <;> rfl

theorem read2_pad2 (n : Nat) (h : n ≤ 99) (rest : List Char) :
    read2 (pad2 n ++ rest) = some (n, rest) := by
  have h1 := digitChar_charToDigit (n / 10) (by omega)
  have h2 := digitChar_charToDigit (n % 10) (by omega)
  show read2 (digitChar (n / 10) :: digitChar (n % 10) :: rest) = _
  simp only [read2]
  rw [h1, h2]
  show some (10 * (n / 10) + n % 10, rest) = some (n, rest)
  rw [Nat.div_add_mod]

theorem read2_pad2_nil (n : Nat) (h : n ≤ 99) :
    read2 (pad2 n) = some (n, []) := by
  have := read2_pad2 n h []
  rwa [List.append_nil] at this

theorem read4_pad4 (n : Nat) (h : n ≤ 9999) (rest : List Char) :
    read4 (pad4 n ++ rest) = some (n, rest) := by
  have h1 := digitChar_charToDigit (n / 1000) (by omega)
  have h2 := digitChar_charToDigit (n / 100 % 10) (by omega)
  have h3 := digitChar_charToDigit (n / 10 % 10) (by omega)
  have h4 := digitChar_charToDigit (n % 10) (by omega)
  show read4 (digitChar (n / 1000) :: digitChar (n / 100 % 10) ::
    digitChar (n / 10 % 10) :: digitChar (n % 10) :: rest) = _
  simp only [read4]
  rw [h1, h2, h3, h4]
  show some (1000 * (n / 1000) + 100 * (n / 100 % 10) +
      10 * (n / 10 % 10) + n % 10, rest) = some (n, rest)
  have : 1000 * (n / 1000) + 100 * (n / 100 % 10) +
      10 * (n / 10 % 10) + n % 10 = n := by omega
  rw [this]

theorem read2_eq_some (cs : List Char) (n : Nat) (rest : List Char)
    (h : read2 cs = some (n, rest)) :
    n ≤ 99 ∧ cs = pad2 n ++ rest := by
  rcases cs with _ | ⟨c1, cs⟩
  · exact Option.noConfusion h
  rcases cs with _ | ⟨c2, r⟩
  · exact Option.noConfusion h
  simp only [read2] at h
  rcases h1 : charToDigit c1 with _ | d1 <;> rw [h1] at h
  · exact Option.noConfusion h
  rcases h2 : charToDigit c2 with _ | d2 <;> rw [h2] at h
  · exact Option.noConfusion h
  injection h with h3
  have e1 : 10 * d1 + d2 = n := congrArg Prod.fst h3
  have e2 : r = rest := congrArg Prod.snd h3
  have b1 := charToDigit_le_nine c1 d1 h1
  have b2 := charToDigit_le_nine c2 d2 h2
  subst e2
  refine ⟨by omega, ?cs⟩
  show c1 :: c2 :: r = digitChar (n / 10) :: digitChar (n % 10) :: r
  rw [show n / 10 = d1 from by omega, show n % 10 = d2 from by omega,
    charToDigit_digitChar c1 d1 h1, charToDigit_digitChar c2 d2 h2]

theorem read4_eq_some (cs : List Char) (n : Nat) (rest : List Char)
    (h : read4 cs = some (n, rest)) :
    n ≤ 9999 ∧ cs = pad4 n ++ rest := by
  rcases cs with _ | ⟨c1, cs⟩
  · exact Option.noConfusion h
  rcases cs with _ | ⟨c2, cs⟩
  · exact Option.noConfusion h
  rcases cs with _ | ⟨c3, cs⟩
  · exact Option.noConfusion h
  rcases cs with _ | ⟨c4, r⟩
  · exact Option.noConfusion h
  simp only [read4] at h
  rcases h1 : charToDigit c1 with _ | d1 <;> rw [h1] at h
  · exact Option.noConfusion h
  rcases h2 : charToDigit c2 with _ | d2 <;> rw [h2] at h
  · exact Option.noConfusion h
  rcases h3 : charToDigit c3 with _ | d3 <;> rw [h3] at h
  · exact Option.noConfusion h
  rcases h4 : charToDigit c4 with _ | d4 <;> rw [h4] at h
  · exact Option.noConfusion h
  injection h with h5
  have e1 : 1000 * d1 + 100 * d2 + 10 * d3 + d4 = n := congrArg Prod.fst h5
  have e2 : r = rest := congrArg Prod.snd h5
  have b1 := charToDigit_le_nine c1 d1 h1
  have b2 := charToDigit_le_nine c2 d2 h2
  have b3 := charToDigit_le_nine c3 d3 h3
  have b4 := charToDigit_le_nine c4 d4 h4
  subst e2
  refine ⟨by omega, ?cs⟩
  show c1 :: c2 :: c3 :: c4 :: r = digitChar (n / 1000) ::
    digitChar (n / 100 % 10) :: digitChar (n / 10 % 10) ::
    digitChar (n % 10) :: r
  rw [show n / 1000 = d1 from by omega, show n / 100 % 10 = d2 from by omega,
    show n / 10 % 10 = d3 from by omega, show n % 10 = d4 from by omega,
    charToDigit_digitChar c1 d1 h1, charToDigit_digitChar c2 d2 h2,
    charToDigit_digitChar c3 d3 h3, charToDigit_digitChar c4 d4 h4]

theorem readNum_pad2 (n : Nat) (h : n ≤ 99) (rest : List Char) :
    readNum (pad2 n ++ rest) = some (n, rest) := by
  have h1 := digitChar_charToDigit (n / 10) (by omega)
  have h2 := digitChar_charToDigit (n % 10) (by omega)
  show readNum (digitChar (n / 10) :: digitChar (n % 10) :: rest) = _
  simp only [readNum]
  rw [h1, h2]
  show some (10 * (n / 10) + n % 10, rest) = some (n, rest)
  rw [Nat.div_add_mod]

theorem readNum_eq_some (cs : List Char) (n : Nat) (rest : List Char)
    (h : readNum cs = some (n, rest)) :
    (n ≤ 99 ∧ cs = pad2 n ++ rest) ∨ (n ≤ 9 ∧ cs = digitChar n :: rest) := by
  rcases cs with _ | ⟨c1, cs⟩
  · exact Option.noConfusion h
  rcases cs with _ | ⟨c2, r2⟩
  · simp only [readNum] at h
    rcases h1 : charToDigit c1 with _ | d1 <;> rw [h1] at h
    · exact Option.noConfusion h
    injection h with h3
    have b1 := charToDigit_le_nine c1 d1 h1
    have e1 : d1 = n := congrArg Prod.fst h3
    have e2 : ([] : List Char) = rest := congrArg Prod.snd h3
    refine Or.inr ⟨by omega, ?one⟩
    case one => rw [← e2, ← e1, charToDigit_digitChar c1 d1 h1]
  · simp only [readNum] at h
    rcases h1 : charToDigit c1 with _ | d1 <;> rw [h1] at h
    · exact Option.noConfusion h
    have b1 := charToDigit_le_nine c1 d1 h1
    rcases h2 : charToDigit c2 with _ | d2 <;> rw [h2] at h
    · injection h with h3
      have e1 : d1 = n := congrArg Prod.fst h3
      have e2 : c2 :: r2 = rest := congrArg Prod.snd h3
      refine Or.inr ⟨by omega, ?one2⟩
      case one2 => rw [← e2, ← e1, charToDigit_digitChar c1 d1 h1]
    · injection h with h3
      have b2 := charToDigit_le_nine c2 d2 h2
      have e1 : 10 * d1 + d2 = n := congrArg Prod.fst h3
      have e2 : r2 = rest := congrArg Prod.snd h3
      subst e2
      refine Or.inl ⟨by omega, ?two⟩
      case two =>
        show c1 :: c2 :: r2 = digitChar (n / 10) :: digitChar (n % 10) :: r2
        rw [show n / 10 = d1 from by omega, show n % 10 = d2 from by omega,
          charToDigit_digitChar c1 d1 h1, charToDigit_digitChar c2 d2 h2]

theorem expectCh_cons (c : Char) (rest : List Char) :
    expectCh c (c :: rest) = some rest := by
  simp [expectCh]

theorem expectCh_eq_some (c : Char) (cs rest : List Char)
    (h : expectCh c cs = some rest) : cs = c :: rest := by
  rcases cs with _ | ⟨c0, r⟩
  · exact Option.noConfusion h
  simp only [expectCh] at h
  by_cases hc : c0 = c
  · rw [if_pos hc] at h
    injection h with h2
    rw [hc, h2]
  · rw [if_neg hc] at h
    exact Option.noConfusion h

/-- No month has more than 31 days. -/
theorem daysIn_le (m y : Nat) : daysIn m y ≤ 31 := by
  unfold daysIn
  split_ifs <;> omega

/-- Formatting a representable instant and parsing it back yields the same
instant with sub-second precision dropped (truncated, not rounded). -/
theorem parseDT_format (t : DateTime) (h : t.Valid) :
    parseDTList (formatDT t) = some { t with nanos := 0 } := by
  obtain ⟨hy, hm1, hm2, hd1, hd2, hh, hmin, hsec⟩ := h
  unfold formatDT parseDTList
  rw [read4_pad4 t.year (by omega)]
  simp only [Option.some_bind]
  rw [expectCh_cons]
  simp only [Option.some_bind]
  rw [read2_pad2 t.month (by omega)]
  simp only [Option.some_bind]
  rw [expectCh_cons]
  simp only [Option.some_bind]
  rw [read2_pad2 t.day (by have := daysIn_le t.month t.year; omega)]
  simp only [Option.some_bind]
  rw [expectCh_cons]
  simp only [Option.some_bind]
  rw [readNum_pad2 t.hour (by omega)]
  simp only [Option.some_bind]
  rw [expectCh_cons]
  simp only [Option.some_bind]
  rw [read2_pad2 t.minute (by omega)]
  simp only [Option.some_bind]
  rw [expectCh_cons]
  simp only [Option.some_bind]
  rw [read2_pad2_nil t.second (by omega)]
  simp only [Option.some_bind]
  exact if_pos ⟨hm1, hm2, hd1, hd2, hh, hmin, hsec⟩

/-- A 19-character string the parser accepts is in canonical fixed-width
form: it is exactly the formatted rendering of the parsed instant, which
is in-range and carries no sub-second part. (Go also accepts non-canonical
renderings — a single-digit hour or a fractional-second suffix — whose
lengths differ from 19.) -/
theorem parseDT_eq_some_canonical (cs : List Char) (t : DateTime)
    (h : parseDTList cs = some t) (hlen : cs.length = 19) :
    formatDT t = cs ∧ t.nanos = 0 ∧ t.Valid := by
  unfold parseDTList at h
  rcases h1 : read4 cs with _ | ⟨y, cs1⟩ <;> rw [h1] at h
  · exact Option.noConfusion h
  simp only [Option.some_bind] at h
  rcases h2 : expectCh '-' cs1 with _ | cs2 <;> rw [h2] at h
  · exact Option.noConfusion h
  simp only [Option.some_bind] at h
  rcases h3 : read2 cs2 with _ | ⟨mo, cs3⟩ <;> rw [h3] at h
  · exact Option.noConfusion h
  simp only [Option.some_bind] at h
  rcases h4 : expectCh '-' cs3 with _ | cs4 <;> rw [h4] at h
  · exact Option.noConfusion h
  simp only [Option.some_bind] at h
  rcases h5 : read2 cs4 with _ | ⟨dy, cs5⟩ <;> rw [h5] at h
  · exact Option.noConfusion h
  simp only [Option.some_bind] at h
  rcases h6 : expectCh 'T' cs5 with _ | cs6 <;> rw [h6] at h
  · exact Option.noConfusion h
  simp only [Option.some_bind] at h
  rcases h7 : readNum cs6 with _ | ⟨hr, cs7⟩ <;> rw [h7] at h
  · exact Option.noConfusion h
  simp only [Option.some_bind] at h
  rcases h8 : expectCh ':' cs7 with _ | cs8 <;> rw [h8] at h
  · exact Option.noConfusion h
  simp only [Option.some_bind] at h
  rcases h9 : read2 cs8 with _ | ⟨mi, cs9⟩ <;> rw [h9] at h
  · exact Option.noConfusion h
  simp only [Option.some_bind] at h
  rcases h10 : expectCh ':' cs9 with _ | cs10 <;> rw [h10] at h
  · exact Option.noConfusion h
  simp only [Option.some_bind] at h
  rcases h11 : read2 cs10 with _ | ⟨sec, cs11⟩ <;> rw [h11] at h
  · exact Option.noConfusion h
  simp only [Option.some_bind] at h
  rcases hf : parseFrac cs11 with ⟨ns, rem⟩
  rw [hf] at h
  rcases rem with _ | ⟨c0, r0⟩
  case cons => exact Option.noConfusion h
  replace h : (if 1 ≤ mo ∧ mo ≤ 12 ∧ 1 ≤ dy ∧ dy ≤ daysIn mo y ∧
      hr ≤ 23 ∧ mi ≤ 59 ∧ sec ≤ 59 then
      some (⟨y, mo, dy, hr, mi, sec, ns⟩ : DateTime) else none) = some t := h
  by_cases hcond : 1 ≤ mo ∧ mo ≤ 12 ∧ 1 ≤ dy ∧ dy ≤ daysIn mo y ∧
      hr ≤ 23 ∧ mi ≤ 59 ∧ sec ≤ 59
  case neg => rw [if_neg hcond] at h; exact Option.noConfusion h
  rw [if_pos hcond] at h
  injection h with h12
  subst h12
  obtain ⟨hy, hcs⟩ := read4_eq_some cs y cs1 h1
  have e2 := expectCh_eq_some _ _ _ h2
  have e3 := (read2_eq_some _ _ _ h3).2
  have e4 := expectCh_eq_some _ _ _ h4
  have e5 := (read2_eq_some _ _ _ h5).2
  have e6 := expectCh_eq_some _ _ _ h6
  have e8 := expectCh_eq_some _ _ _ h8
  have e9 := (read2_eq_some _ _ _ h9).2
  have e10 := expectCh_eq_some _ _ _ h10
  have e11 := (read2_eq_some _ _ _ h11).2
  rcases readNum_eq_some _ _ _ h7 with ⟨hhr, e7⟩ | ⟨hhr, e7⟩
  · -- two-digit hour: the 19-character budget forces an empty suffix,
    -- hence no fractional second and a fully canonical rendering
    rw [hcs, e2, e3, e4, e5, e6, e7, e8, e9, e10, e11] at hlen
    simp only [List.length_append, List.length_cons, pad4, pad2,
      List.length_nil] at hlen
    have hnil : cs11.length = 0 := by omega
    rcases cs11 with _ | ⟨d0, ds⟩
    · have hpf : parseFrac [] = (0, []) := rfl
      have hns : ns = 0 := congrArg Prod.fst (hf.symm.trans hpf)
      subst hns
      refine ⟨?fmt, rfl, hy, hcond⟩
      case fmt =>
        rw [hcs, e2, e3, e4, e5, e6, e7, e8, e9, e10, e11, List.append_nil]
        rfl
    · simp at hnil
  · -- single-digit hour: one character is left over after the seconds,
    -- which the fraction step cannot consume, so the parse cannot end
    exfalso
    rw [hcs, e2, e3, e4, e5, e6, e7, e8, e9, e10, e11] at hlen
    simp only [List.length_append, List.length_cons, pad4, pad2,
      List.length_nil] at hlen
    have hone : cs11.length = 1 := by omega
    rcases cs11 with _ | ⟨d0, ds⟩
    · simp at hone
    rcases ds with _ | ⟨d1, ds⟩
    · have hpf : parseFrac [d0] = (0, [d0]) := rfl
      exact List.noConfusion (congrArg Prod.snd (hf.symm.trans hpf))
    · rw [List.length_cons, List.length_cons] at hone
      omega

theorem string_mk_toList (s : String) : String.mk s.toList = s := rfl

theorem toList_string_mk (l : List Char) : (String.mk l).toList = l := rfl

/-- Decode-then-encode core for the version codec. -/
theorem version_decode_encode (t : DateTime) (h : t.Valid) :
    versionUnmarshalTime (versionMarshalTime t) = some { t with nanos := 0 } := by
  unfold versionUnmarshalTime versionMarshalTime goTimeParse goTimeFormat
  rw [toList_string_mk]
  exact parseDT_format t h

/-- Counterexample to C2 as stated: Go `time.Parse` also accepts the
non-canonical marker string "2024-03-01T3:04:05" (single-digit hour, via
the lenient `15` verb), and re-encoding the decoded value yields the
canonical "2024-03-01T03:04:05", not the original marker. A
fractional-second suffix is likewise accepted (stored as nanoseconds) and
lost on re-encoding. -/
theorem c2_counterexample :
    versionUnmarshalTime ⟨("datetime", "2024-03-01T3:04:05")⟩ =
      some ⟨2024, 3, 1, 3, 4, 5, 0⟩ ∧
    versionMarshalTime ⟨2024, 3, 1, 3, 4, 5, 0⟩ =
      ⟨("datetime", "2024-03-01T03:04:05")⟩ ∧
    CustomType.mk ("datetime", "2024-03-01T03:04:05") ≠
      ⟨("datetime", "2024-03-01T3:04:05")⟩ ∧
    versionUnmarshalTime ⟨("datetime", "2024-03-01T10:15:30.5")⟩ =
      some ⟨2024, 3, 1, 10, 15, 30, 500000000⟩ :=
  ⟨by decide, rfl, by decide, by decide⟩

/-- C2 (amended): the codec realized by `Version.MarshalJSON` and
`Version.UnmarshalJSON` round-trips datetimes up to canonical form.
Decoding the encoding of any representable timestamp yields the timestamp
with its sub-second part dropped by truncation (never rounded) — exactly
the timestamp itself when it is already truncated to whole seconds — and
encoding the decoded value reproduces the marker for every valid datetime
marker in canonical fixed-width form (19 characters: two-digit hour, no
fractional-second suffix). Non-canonical markers Go also accepts
(single-digit hour, fractional suffix) re-encode to their canonical
rendering instead. -/
theorem c2_datetime_codec_roundtrip :
    (∀ (m : CustomType) (t : DateTime), m.kv.1 = "datetime" →
      versionUnmarshalTime m = some t → m.kv.2.length = 19 →
      versionMarshalTime t = m) ∧
    (∀ t : DateTime, t.Valid →
      versionUnmarshalTime (versionMarshalTime t) =
        some { t with nanos := 0 }) ∧
    (∀ t : DateTime, t.Valid → t.nanos = 0 →
      versionUnmarshalTime (versionMarshalTime t) = some t) := by
  refine ⟨?enc, version_decode_encode, ?dec0⟩
  case enc =>
    intro m t hk hu hlen
    obtain ⟨⟨k, s⟩⟩ := m
    unfold versionMarshalTime goTimeFormat
    rw [(parseDT_eq_some_canonical s.toList t hu hlen).1, string_mk_toList]
    rw [show k = "datetime" from hk]
  case dec0 =>
    intro t ht h0
    rw [version_decode_encode t ht]
    obtain ⟨y, mo, d, hh, mi, s, nn⟩ := t
    cases h0
    rfl

/-- Witness for C2: the codec at the concrete canonical marker
`["datetime", "2024-03-01T10:15:30"]` and at concrete timestamps with and
without a sub-second part. -/
theorem c2_witness :
    versionMarshalTime ⟨2024, 3, 1, 10, 15, 30, 0⟩ =
      ⟨("datetime", "2024-03-01T10:15:30")⟩ ∧
    versionUnmarshalTime (versionMarshalTime ⟨2024, 3, 1, 10, 15, 30, 999999⟩) =
      some ⟨2024, 3, 1, 10, 15, 30, 0⟩ ∧
    versionUnmarshalTime (versionMarshalTime ⟨2024, 3, 1, 10, 15, 30, 0⟩) =
      some ⟨2024, 3, 1, 10, 15, 30, 0⟩ :=
  ⟨c2_datetime_codec_roundtrip.1 ⟨("datetime", "2024-03-01T10:15:30")⟩
      ⟨2024, 3, 1, 10, 15, 30, 0⟩ rfl (by decide) (by decide),
   c2_datetime_codec_roundtrip.2.1 ⟨2024, 3, 1, 10, 15, 30, 999999⟩
      (by decide),
   c2_datetime_codec_roundtrip.2.2 ⟨2024, 3, 1, 10, 15, 30, 0⟩
      (by decide) rfl⟩
